import Mathlib

/-!
Verification of the flexi-trader extraction/validation core.

The development shallowly embeds the Python modules
`app/services/extraction_engine.py`, `app/services/signal_validator.py` and
`app/services/parser_engine.py`.  Conventions of the embedding:

* Python strings are `List Char` (`Str`); `str.strip`, `str.upper`,
  `str.split`, slicing and `str.find` are modelled character-exactly for
  ASCII text (`pyStrip`, `pyUpper`, `pySplit`, `pySlice`, `findOcc`).
* `decimal.Decimal` values are exact rationals (`Rat`); `Decimal(str)`
  construction is `pyDecimal`, a parser for the sign/digits/fraction/exponent
  format (the special values NaN/Infinity and the 28-significant-digit
  context rounding of division are outside the model); `Decimal.quantize`
  at two places with the default ROUND_HALF_EVEN is `roundHalfEven2`.
* `re.search` is modelled abstractly: a compiled pattern either is invalid
  (raising `re.error` when used, constructor `PyRegex.invalid`) or denotes a
  total match function returning the captured text (`PyRegex.matcher`).
  No claim depends on the concrete regex language.
* Python exceptions are `Except PyErr`; `PyErr` distinguishes
  `ExtractionError`, `ValidationError` and all other exception classes
  (`otherError`: TypeError, AttributeError, decimal.InvalidOperation,
  IndexError), because the engines catch these classes differently.
* Python dicts of extracted data are insertion-ordered association lists
  (`PyDict`); a stored value is `Option Str` since the engine stores `None`
  for non-required fields that matched nothing.
-/

attribute [local semireducible] Rat.mul Rat.add Rat.sub Rat.inv Rat.ofScientific

/-- Python strings, as lists of characters. -/
abbrev Str := List Char

/-- The default whitespace of `str.strip` (ASCII part). -/
def isPySpace (c : Char) : Bool :=
  c == ' ' || c == '\t' || c == '\n' || c == '\r' || c == '\x0b' || c == '\x0c'

/-- Python `str.strip()`: drop leading and trailing whitespace. -/
def pyStrip (s : Str) : Str :=
  ((s.dropWhile isPySpace).reverse.dropWhile isPySpace).reverse

/-- Python `str.upper()` (ASCII). -/
def pyUpper (s : Str) : Str := s.map Char.toUpper

/-- Prepend a character to the first chunk of a split result. -/
def consHead (c : Char) : List Str → List Str
  | [] => [[c]]
  | p :: ps => (c :: p) :: ps

/-- Fuel-indexed worker for `pySplit`; the fuel only serves structural
recursion and is irrelevant once it exceeds the length of the string. -/
def pySplitF : Nat → Str → Str → List Str
  | 0, _, s => [s]
  | fuel + 1, sep, s =>
    match s with
    | [] => [[]]
    | c :: rest =>
      if sep.isPrefixOf (c :: rest) then
        [] :: pySplitF fuel sep ((c :: rest).drop sep.length)
      else
        consHead c (pySplitF fuel sep rest)

/-- Python `str.split(sep)` for a non-empty separator: greedy left-to-right
scan, empty chunks kept.  (Python raises on an empty separator; the engine
never calls `split` with one, its truthiness checks rule it out.) -/
def pySplit (sep s : Str) : List Str :=
  if sep.isEmpty then [s] else pySplitF (s.length + 1) sep s

/-- Python `str.find(sep)`: index of the first occurrence of `sep`,
`none` for "not found" (Python returns -1). -/
def findOcc (sep : Str) : Str → Option Nat
  | [] => if sep.isPrefixOf ([] : Str) then some 0 else none
  | c :: rest =>
    if sep.isPrefixOf (c :: rest) then some 0
    else (findOcc sep rest).map (· + 1)

/-- Normalize one Python slice bound: negative indices count from the end,
and bounds are clamped into the string. -/
def pySliceNorm (n : Nat) (i : Int) : Nat :=
  if i < 0 then ((n : Int) + i).toNat else min i.toNat n

/-- Python slicing `s[a:b]`. -/
def pySlice (s : Str) (a b : Int) : Str :=
  let n := s.length
  (s.take (pySliceNorm n b)).drop (pySliceNorm n a)

/-- Numeric value of a digit string. -/
def digitsVal (ds : Str) : Nat :=
  ds.foldl (fun a c => a * 10 + (c.toNat - 48)) 0

/-- All characters are ASCII digits. -/
def allDigits (ds : Str) : Bool := ds.all (·.isDigit)

/-- Parse the (optionally signed) exponent part of a decimal literal. -/
def parseExp (s : Str) : Option Int :=
  let sgn : Int × Str :=
    match s with
    | '+' :: r => (1, r)
    | '-' :: r => (-1, r)
    | _ => (1, s)
  if sgn.2.isEmpty || !allDigits sgn.2 then none
  else some (sgn.1 * (digitsVal sgn.2 : Int))

/-- Core of `Decimal(str)`: sign, integer part, optional fraction, optional
exponent.  Returns `none` where Python raises `decimal.InvalidOperation`. -/
def pyDecimalCore (s : Str) : Option Rat :=
  let sgn : Int × Str :=
    match s with
    | '+' :: r => (1, r)
    | '-' :: r => (-1, r)
    | _ => (1, s)
  let mant := sgn.2.takeWhile (fun c => !(c == 'e' || c == 'E'))
  let restE := sgn.2.drop mant.length
  let expPart : Option Int :=
    match restE with
    | [] => some 0
    | _ :: r => parseExp r
  match expPart with
  | none => none
  | some ex =>
    let ip := mant.takeWhile (fun c => c != '.')
    let restF := mant.drop ip.length
    let fp : Str := match restF with
      | [] => []
      | _ :: r => r
    if fp.any (fun c => c == '.') then none
    else if !allDigits ip || !allDigits fp then none
    else if ip.isEmpty && fp.isEmpty then none
    else
      let n : Int := sgn.1 * (digitsVal (ip ++ fp) : Int)
      let e : Int := ex - (fp.length : Int)
      some (if 0 ≤ e then (n : Rat) * (10 : Rat) ^ e.toNat
            else (n : Rat) / (10 : Rat) ^ (-e).toNat)

/-- `Decimal(str(x))` applied to a string `x`: Python's `Decimal` tolerates
surrounding whitespace. -/
def pyDecimal (s : Str) : Option Rat := pyDecimalCore (pyStrip s)

/-- `Decimal.quantize(Decimal("0.01"))` under the default ROUND_HALF_EVEN:
round to two decimal places, ties to the even hundredth. -/
def roundHalfEven2 (q : Rat) : Rat :=
  let x := q * 100
  let n : Int := ⌊x⌋
  let f : Rat := x - (n : Rat)
  let r : Int :=
    if f < 1/2 then n
    else if 1/2 < f then n + 1
    else if Even n then n else n + 1
  (r : Rat) / 100

example : pyStrip "  ab c  ".toList = "ab c".toList := by decide
example : pySplit ":".toList "a:b:c".toList = ["a".toList, "b".toList, "c".toList] := by decide
example : pySplit "\n".toList "".toList = [[]] := by decide
example : pyDecimal "1.0850".toList = some (1.0850 : Rat) := by decide
example : pyDecimal " -2e1 ".toList = some (-20 : Rat) := by decide
example : pyDecimal "None".toList = none := by decide
example : roundHalfEven2 (10/5) = 2 := by decide
example : roundHalfEven2 (1/3) = 33/100 := by decide
example : roundHalfEven2 (1/200) = 0 := by decide

/-! ## Exceptions (`app/exceptions.py`), abstract regex values -/

/-- Python exceptions, grouped by how the engines catch them:
`ExtractionError` is re-raised by `extract_field`, `ValidationError` is the
validator failure, `otherError` stands for every other exception class
(TypeError, AttributeError, IndexError, decimal.InvalidOperation). -/
inductive PyErr where
  | extractionError (msg : String)
  | validationError (msg : String) (fld : Option String)
  | otherError (msg : String)
deriving DecidableEq

deriving instance DecidableEq for Except

/-- Python `str(e)` on these exception objects: the message. -/
def PyErr.str : PyErr → String
  | .extractionError m => m
  | .validationError m _ => m
  | .otherError m => m

/-- An `re` pattern as used through `re.search(pattern, message, MULTILINE | IGNORECASE)`:
either syntactically invalid (raises `re.error` when searched) or a total
match function returning "group(1) if the pattern has groups else group(0)"
on a match, `none` on no match.  The concrete regex language is irrelevant
to every claim. -/
inductive PyRegex where
  | invalid (err : String)
  | matcher (f : Str → Option Str)

/-! ## Extraction engine (`app/services/extraction_engine.py`) -/

/-- One field's extraction configuration (`field_config` dict).  `.get` calls
with defaults in the source become the structure defaults here. -/
structure FieldConfig where
  extraction_method : String := "regex"
  required : Bool := false
  regex_pattern : Option PyRegex := none
  line_number : Int := 0
  marker_after : Option Str := none
  marker_start : Option Str := none
  marker_end : Option Str := none
  start_pos : Int := 0
  end_pos : Option Int := none

/-- A template's `extraction_config` dict: the `priority` entry (default 0)
and the `fields` dict (insertion-ordered). -/
structure ExtractionConfig where
  priority : Int := 0
  fields : List (String × FieldConfig) := []

/-- The extracted-data dict: insertion-ordered, values may be stored `None`. -/
abbrev PyDict := List (String × Option Str)

/-- Key membership plus stored value: `some v` iff the key is present
(`v` itself may be `none`, the stored Python `None`). -/
def dget (d : PyDict) (k : String) : Option (Option Str) :=
  (d.find? (fun p => p.1 == k)).map (·.2)

/-- Python `d.get(k)`: `None` for a missing key and for a stored `None`. -/
def flatGet (d : PyDict) (k : String) : Option Str :=
  match dget d k with
  | some v => v
  | none => none

/-- Python truthiness of an extracted value: `None` and `""` are falsy. -/
def truthy (v : Option Str) : Bool :=
  match v with
  | none => false
  | some s => !s.isEmpty

/-- Python `d[k] = v`: replace in place, or append a new entry. -/
def dset (d : PyDict) (k : String) (v : Option Str) : PyDict :=
  if d.any (fun p => p.1 == k) then d.map (fun p => if p.1 == k then (k, v) else p)
  else d ++ [(k, v)]

/-- Python `d.pop(k, None)`: drop the entry. -/
def dpop (d : PyDict) (k : String) : PyDict :=
  d.filter (fun p => !(p.1 == k))

/-- `RegexExtractionMethod.extract`: `re.search` with the abstract pattern.
A `None` pattern makes `re.search` raise TypeError (not an ExtractionError);
an invalid pattern raises `re.error`, reported as `ExtractionError`. -/
def RegexExtractionMethod.extract (pattern : Option PyRegex) (message : Str) :
    Except PyErr (Option Str) :=
  match pattern with
  | none => .error (.otherError "TypeError: first argument must be string or compiled pattern")
  | some (.invalid e) => .error (.extractionError ("Invalid regex pattern: " ++ e))
  | some (.matcher f) => .ok (f message)

/-- `LineBasedExtractionMethod.extract`: split on newlines, 0-based index,
strip, then `line.split(marker_after)[1].strip()` when the marker splits the
line in more than one part. -/
def LineBasedExtractionMethod.extract (message : Str) (config : FieldConfig) : Option Str :=
  let lines := pySplit ['\n'] message
  let line_number := config.line_number
  if line_number < 0 || (lines.length : Int) ≤ line_number then none
  else
    let line := pyStrip (lines.getD line_number.toNat [])
    let viaMarker : Option Str :=
      match config.marker_after with
      | some m =>
        if !m.isEmpty then
          let parts := pySplit m line
          if 1 < parts.length then some (pyStrip (parts.getD 1 [])) else none
        else none
      | none => none
    match viaMarker with
    | some v => some v
    | none => if line.isEmpty then none else some line

/-- `MarkerBasedExtractionMethod.extract`: text between `marker_start` and
the next `marker_end` (end of message if absent), stripped. -/
def MarkerBasedExtractionMethod.extract (message : Str) (config : FieldConfig) : Option Str :=
  match config.marker_start, config.marker_end with
  | some ms, some me =>
    if ms.isEmpty || me.isEmpty then none
    else
      match findOcc ms message with
      | none => none
      | some i =>
        let rest := message.drop (i + ms.length)
        some (pyStrip (rest.take ((findOcc me rest).getD rest.length)))
  | _, _ => none

/-- `TextPositionExtractionMethod.extract`: slice from `start_pos` to
`end_pos`, or to the first space/newline when `end_pos` is absent.  The
space scan indexes `message[i]` directly, so `start_pos < -len(message)`
raises IndexError there (caught later as a generic failure). -/
def TextPositionExtractionMethod.extract (message : Str) (config : FieldConfig) :
    Except PyErr (Option Str) :=
  let n : Int := message.length
  let sp := config.start_pos
  match config.end_pos with
  | some e =>
    .ok (if sp < 0 || n ≤ sp then none else some (pyStrip (pySlice message sp e)))
  | none =>
    if sp < -n && sp < n then .error (.otherError "IndexError: string index out of range")
    else if sp < 0 || n ≤ sp then .ok none
    else
      let ep : Int :=
        match List.findIdx? (fun c => c == ' ' || c == '\n') (message.drop sp.toNat) with
        | some j => sp + (j : Int)
        | none => n
      .ok (some (pyStrip (pySlice message sp ep)))

/-- `ExtractionEngine.extract_field`: method dispatch (unknown method fails
without raising), then the None-and-required rule; `ExtractionError` is
re-raised, any other exception becomes `(None, False)`. -/
def ExtractionEngine.extract_field (message : Str) (field_config : FieldConfig)
    (field_name : String) : Except PyErr (Option Str × Bool) :=
  let method_name := field_config.extraction_method
  if !(["regex", "line", "marker", "position"].contains method_name) then .ok (none, false)
  else
    let attempt : Except PyErr (Option Str) :=
      if method_name == "line" then .ok (LineBasedExtractionMethod.extract message field_config)
      else if method_name == "marker" then
        .ok (MarkerBasedExtractionMethod.extract message field_config)
      else if method_name == "position" then
        TextPositionExtractionMethod.extract message field_config
      else RegexExtractionMethod.extract field_config.regex_pattern message
    match attempt with
    | .error (.extractionError m) => .error (.extractionError m)
    | .error _ => .ok (none, false)
    | .ok value =>
      if value.isNone && field_config.required then .ok (none, false)
      else .ok (value, true)

/-- The error string appended for a required field that failed
(`f"Required field '{field_name}' could not be extracted"`, modulo quotes). -/
def reqErrMsg (field_name : String) : String :=
  "Required field " ++ field_name ++ " could not be extracted"

/-- Loop body of `ExtractionEngine.extract_all_fields`: iterate the fields
dict in order, store the value on success, record an error for a failed
required field, and let `ExtractionError` propagate. -/
def ExtractionEngine.extract_all_fields_go (message : Str) :
    List (String × FieldConfig) → PyDict → List String → Except PyErr (PyDict × List String)
  | [], data, errs => .ok (data, errs)
  | (field_name, fc) :: rest, data, errs =>
    match ExtractionEngine.extract_field message fc field_name with
    | .error e => .error e
    | .ok (value, success) =>
      if success then
        ExtractionEngine.extract_all_fields_go message rest (dset data field_name value) errs
      else if fc.required then
        ExtractionEngine.extract_all_fields_go message rest data (errs ++ [reqErrMsg field_name])
      else ExtractionEngine.extract_all_fields_go message rest data errs

/-- `ExtractionEngine.extract_all_fields`. -/
def ExtractionEngine.extract_all_fields (message : Str) (extraction_config : ExtractionConfig) :
    Except PyErr (PyDict × List String) :=
  ExtractionEngine.extract_all_fields_go message extraction_config.fields [] []

/-- Return shape of `ExtractionEngine.test_extraction`. -/
structure TestExtractionResult where
  success : Bool
  extracted_data : PyDict
  errors : List String
deriving DecidableEq

/-- `ExtractionEngine.test_extraction`: wraps `extract_all_fields`; success
is "no errors"; a raised exception is reported as a single error entry. -/
def ExtractionEngine.test_extraction (sample_message : Str)
    (extraction_config : ExtractionConfig) : TestExtractionResult :=
  match ExtractionEngine.extract_all_fields sample_message extraction_config with
  | .ok (extracted_data, errors) => ⟨errors.isEmpty, extracted_data, errors⟩
  | .error e => ⟨false, [], [e.str]⟩

example :
    ExtractionEngine.extract_all_fields "hello".toList
      ⟨0, [("x", { extraction_method := "line", line_number := 5 })]⟩ =
      .ok ([("x", none)], []) := by decide

example :
    LineBasedExtractionMethod.extract "SL: 1.08".toList
      { extraction_method := "line", line_number := 0, marker_after := ":".toList } =
      some "1.08".toList := by decide

/-! ## Signal validator (`app/services/signal_validator.py`) -/

/-- `SignalValidator.VALID_SIGNAL_TYPES`. -/
def SignalValidator.VALID_SIGNAL_TYPES : List Str :=
  ["BUY".toList, "SELL".toList, "LONG".toList, "SHORT".toList]

/-- `SignalValidator.VALID_TIMEFRAMES`, with the source's duplicate `"1M"`
literal (minute vs month) kept; as in a Python set literal the duplicate
does not change membership. -/
def SignalValidator.VALID_TIMEFRAMES : List Str :=
  ["1M".toList, "5M".toList, "15M".toList, "30M".toList,
   "1H".toList, "4H".toList, "1D".toList, "1W".toList, "1M".toList]

/-- `SignalValidator.validate_signal_type`: uppercase, strip, membership. -/
def SignalValidator.validate_signal_type (signal_type : Str) : Except PyErr Str :=
  let normalized := pyStrip (pyUpper signal_type)
  if SignalValidator.VALID_SIGNAL_TYPES.contains normalized then .ok normalized
  else .error (.validationError "Invalid signal type" (some "signal_type"))

/-- `SignalValidator.validate_timeframe`: uppercase, strip, membership. -/
def SignalValidator.validate_timeframe (timeframe : Str) : Except PyErr Str :=
  let normalized := pyStrip (pyUpper timeframe)
  if SignalValidator.VALID_TIMEFRAMES.contains normalized then .ok normalized
  else .error (.validationError "Invalid timeframe" (some "timeframe"))

/-- `SignalValidator.validate_buy_signal`: entry > stop-loss, and
take-profit > entry when one is supplied. -/
def SignalValidator.validate_buy_signal (entry stop_loss : Rat) (take_profit : Option Rat) :
    Except PyErr Bool :=
  if entry ≤ stop_loss then
    .error (.validationError "BUY signal: entry price must be greater than stop loss"
      (some "price_logic"))
  else
    match take_profit with
    | some tp =>
      if tp ≤ entry then
        .error (.validationError "BUY signal: take profit must be greater than entry"
          (some "price_logic"))
      else .ok true
    | none => .ok true

/-- `SignalValidator.validate_sell_signal`: entry < stop-loss, and
take-profit < entry when one is supplied. -/
def SignalValidator.validate_sell_signal (entry stop_loss : Rat) (take_profit : Option Rat) :
    Except PyErr Bool :=
  if stop_loss ≤ entry then
    .error (.validationError "SELL signal: entry price must be less than stop loss"
      (some "price_logic"))
  else
    match take_profit with
    | some tp =>
      if entry ≤ tp then
        .error (.validationError "SELL signal: take profit must be less than entry"
          (some "price_logic"))
      else .ok true
    | none => .ok true

/-- Take-profit loop of `validate_price_levels`: one error entry per failing
TP, 1-based labels.  (A TP may be a dict in the source, read via
`tp.get("price")`; the model takes the numeric prices.) -/
def SignalValidator.validate_price_levels_go (entry stop_loss : Rat) (signal_type : Str) :
    List Rat → Nat → List String → List String
  | [], _, errs => errs
  | tp :: rest, idx, errs =>
    let res :=
      if signal_type == "BUY".toList then
        SignalValidator.validate_buy_signal entry stop_loss (some tp)
      else SignalValidator.validate_sell_signal entry stop_loss (some tp)
    match res with
    | .error e =>
      SignalValidator.validate_price_levels_go entry stop_loss signal_type rest (idx + 1)
        (errs ++ ["TP" ++ toString idx ++ ": " ++ e.str])
    | .ok _ =>
      SignalValidator.validate_price_levels_go entry stop_loss signal_type rest (idx + 1) errs

/-- `SignalValidator.validate_price_levels`: entry/stop-loss check first
(short-circuit with a single error), then every take-profit checked
independently; the BUY branch is taken only for the exact string "BUY". -/
def SignalValidator.validate_price_levels (entry stop_loss : Rat) (take_profits : List Rat)
    (signal_type : Str) : Bool × List String :=
  let first :=
    if signal_type == "BUY".toList then
      SignalValidator.validate_buy_signal entry stop_loss none
    else SignalValidator.validate_sell_signal entry stop_loss none
  match first with
  | .error e => (false, [e.str])
  | .ok _ =>
    let errs :=
      SignalValidator.validate_price_levels_go entry stop_loss signal_type take_profits 1 []
    (errs.isEmpty, errs)

/-- `SignalValidator.calculate_risk_reward_ratio` (the name is shortened
here): directional risk and reward, both must be strictly positive, the
quotient is quantized to two decimals; the function's internal
ValidationError is re-wrapped by its own try/except into the final
ValidationError, so a non-positive risk or reward is a ValidationError
either way. -/
def SignalValidator.calculate_risk_reward (entry stop_loss take_profit : Rat)
    (signal_type : Str) : Except PyErr Rat :=
  let risk := if signal_type == "BUY".toList then entry - stop_loss else stop_loss - entry
  let reward := if signal_type == "BUY".toList then take_profit - entry else entry - take_profit
  if risk ≤ 0 then
    .error (.validationError "Failed to calculate risk/reward: risk must be positive"
      (some "risk_reward"))
  else if reward ≤ 0 then
    .error (.validationError "Failed to calculate risk/reward: reward must be positive"
      (some "risk_reward"))
  else .ok (roundHalfEven2 (reward / risk))

/-- `SignalValidator.validate_price` on an already-numeric price (the
source accepts Any and converts through `Decimal(str(price))`); a
non-positive price is a ValidationError, the large-price branch only logs. -/
def SignalValidator.validate_price (price : Rat) (field_name : String) : Except PyErr Rat :=
  if price ≤ 0 then
    .error (.validationError "must be positive" (some field_name))
  else .ok price

example :
    SignalValidator.validate_buy_signal (1.0900 : Rat) (1.0950 : Rat) none =
      .error (.validationError "BUY signal: entry price must be greater than stop loss"
        (some "price_logic")) := by decide

example : SignalValidator.calculate_risk_reward 100 95 110 "BUY".toList = .ok 2 := by decide

example :
    SignalValidator.calculate_risk_reward (1.0950 : Rat) (1.1000 : Rat) (1.0900 : Rat)
      "SELL".toList = .ok 1 := by decide

/-! ## Parser engine (`app/services/parser_engine.py`) and its data model -/

/-- The message rows the parser reads (`app/models/message.py`): only the
fields the core touches. -/
structure Message where
  id : Nat
  telegram_message_id : Nat
  text : Str
deriving DecidableEq

/-- A template row (`app/models/template.py`): identity, channel, active
flag and the extraction config. -/
structure Template where
  id : Nat
  name : String
  channel_id : Nat
  is_active : Bool
  extraction_config : ExtractionConfig

/-- One normalized take-profit object (`hit_at` is always absent at
creation and not modelled). -/
structure TPEntry where
  level : Str
  price : Rat
  hit : Bool
deriving DecidableEq

/-- The normalized stop-loss object (`hit_at` always absent). -/
structure StopLossEntry where
  price : Rat
  hit : Bool
deriving DecidableEq

/-- The `extraction_metadata` dict stamped onto a Signal. -/
structure SignalMeta where
  template_id : Nat
  template_name : String
  extraction_method : String
  extracted_fields : List String
deriving DecidableEq

/-- The Signal entity as built by `ParserEngine._create_signal_from_data`. -/
structure Signal where
  channel_id : Nat
  template_id : Nat
  user_id : String
  original_message_id : Nat
  original_message_text : Str
  symbol : Str
  entry_price : Rat
  take_profits : List TPEntry
  stop_loss : Option StopLossEntry
  signal_type : Str
  timeframe : Option Str
  status : String
  confidence_score : Rat
  extraction_metadata : SignalMeta
deriving DecidableEq

/-- `ParserEngine._validate_extracted_data`.  Notes tied to the source:
`.get("signal_type", "BUY")` returns a stored `None` (then `.upper()`
raises AttributeError, a generic error); an invalid signal type silently
becomes "BUY" and an invalid timeframe is popped; `Decimal(str(...))` on
the entry and stop-loss values raises InvalidOperation on non-numeric
text; the final buy/sell check uses the entry as a placeholder take-profit,
always fails on that placeholder and is swallowed by its `except`, so it
never affects the result. -/
def ParserEngine.validate_extracted_data (extracted_data : PyDict) : Except PyErr PyDict :=
  if !truthy (flatGet extracted_data "symbol") then
    .error (.validationError "Symbol is required" (some "symbol"))
  else if (dget extracted_data "entry_price").isNone then
    .error (.validationError "Entry price is required" (some "entry_price"))
  else
    let st0 : Option Str :=
      match dget extracted_data "signal_type" with
      | none => some "BUY".toList
      | some v => v
    match st0 with
    | none => .error (.otherError "AttributeError: NoneType object has no attribute upper")
    | some st =>
      let d1 :=
        match SignalValidator.validate_signal_type (pyUpper st) with
        | .ok v => dset extracted_data "signal_type" (some v)
        | .error _ => dset extracted_data "signal_type" (some "BUY".toList)
      let d2 :=
        if truthy (flatGet d1 "timeframe") then
          match flatGet d1 "timeframe" with
          | some tf =>
            match SignalValidator.validate_timeframe tf with
            | .ok v => dset d1 "timeframe" (some v)
            | .error _ => dpop d1 "timeframe"
          | none => d1
        else d1
      let entryStr : Option Str :=
        match dget d2 "entry_price" with
        | none => some "0".toList
        | some v => v
      match entryStr with
      | none => .error (.otherError "decimal.InvalidOperation: Decimal of str(None)")
      | some es =>
        match pyDecimal es with
        | none => .error (.otherError "decimal.InvalidOperation")
        | some _entry =>
          let sl := flatGet d2 "stop_loss"
          if truthy sl then
            match sl with
            | some ss =>
              match pyDecimal ss with
              | none => .error (.otherError "decimal.InvalidOperation")
              | some _slq => .ok d2
            | none => .ok d2
          else .ok d2

/-- `ParserEngine._normalize_take_profits` on the values the extraction
path produces (a string or absent; the dict and list input forms of the
source are unreachable from `parse_message`, whose extracted values are
strings). -/
def ParserEngine.normalize_take_profits (take_profits_data : Option Str) :
    Except PyErr (List TPEntry) :=
  match take_profits_data with
  | none => .ok []
  | some s =>
    if s.isEmpty then .ok []
    else
      match pyDecimal s with
      | none => .error (.otherError "decimal.InvalidOperation")
      | some q => .ok [⟨"TP1".toList, q, false⟩]

/-- `ParserEngine._calculate_confidence_score`: start at 1.0, four
deductions, clamp to [0, 1]. -/
def ParserEngine.calculate_confidence_score (data : PyDict) : Rat :=
  let score : Rat := 1
  let score := if !truthy (flatGet data "stop_loss") then score - 15/100 else score
  let score := if !truthy (flatGet data "take_profits") then score - 15/100 else score
  let score := if !truthy (flatGet data "timeframe") then score - 5/100 else score
  let score :=
    if !truthy (flatGet data "signal_type") || flatGet data "signal_type" == some "BUY".toList
    then score - 5/100 else score
  max 0 (min 1 score)

/-- `ParserEngine._create_signal_from_data`.  Decimal conversions happen in
source order (entry, then take-profits, then stop-loss); a stored `None`
signal type cannot survive `_validate_extracted_data`, so the `.get`
default collapses absent and stored-`None` to "BUY" here. -/
def ParserEngine.create_signal_from_data (validated_data : PyDict) (message : Message)
    (template : Template) (channel_id : Nat) (user_id : String) : Except PyErr Signal :=
  match dget validated_data "entry_price" with
  | none => .error (.otherError "KeyError: entry_price")
  | some none => .error (.otherError "decimal.InvalidOperation: Decimal of str(None)")
  | some (some es) =>
    match pyDecimal es with
    | none => .error (.otherError "decimal.InvalidOperation")
    | some entry_price =>
      match ParserEngine.normalize_take_profits (flatGet validated_data "take_profits") with
      | .error e => .error e
      | .ok take_profits =>
        let slv := flatGet validated_data "stop_loss"
        let slRes : Except PyErr (Option StopLossEntry) :=
          if truthy slv then
            match slv with
            | some ss =>
              match pyDecimal ss with
              | none => .error (.otherError "decimal.InvalidOperation")
              | some q => .ok (some ⟨q, false⟩)
            | none => .ok none
          else .ok none
        match slRes with
        | .error e => .error e
        | .ok stop_loss =>
          match flatGet validated_data "symbol" with
          | none => .error (.otherError "AttributeError: NoneType object has no attribute upper")
          | some sym =>
            .ok {
              channel_id := channel_id
              template_id := template.id
              user_id := user_id
              original_message_id := message.telegram_message_id
              original_message_text := message.text
              symbol := pyUpper sym
              entry_price := entry_price
              take_profits := take_profits
              stop_loss := stop_loss
              signal_type := (flatGet validated_data "signal_type").getD "BUY".toList
              timeframe := flatGet validated_data "timeframe"
              status := "PENDING"
              confidence_score := ParserEngine.calculate_confidence_score validated_data
              extraction_metadata :=
                ⟨template.id, template.name, "template_based", validated_data.map (·.1)⟩ }

/-- `ParserEngine._extract_from_template`: extraction, the two
ExtractionError guards, validation, signal creation. -/
def ParserEngine.extract_from_template (message : Message) (template : Template)
    (channel_id : Nat) (user_id : String) : Except PyErr Signal :=
  match ExtractionEngine.extract_all_fields message.text template.extraction_config with
  | .error e => .error e
  | .ok (extracted_data, errors) =>
    if !errors.isEmpty then .error (.extractionError "Extraction failed")
    else if extracted_data.isEmpty then
      .error (.extractionError "No data extracted from message")
    else
      match ParserEngine.validate_extracted_data extracted_data with
      | .error e => .error e
      | .ok validated_data =>
        ParserEngine.create_signal_from_data validated_data message template channel_id user_id

/-- The sort key of `_get_applicable_templates`
(`extraction_config.get("priority", 0)`). -/
def ParserEngine.get_priority (t : Template) : Int := t.extraction_config.priority

/-- Stable insertion for the priority sort: an element goes before the
first strictly-smaller-or-equal priority it can precede; among equal
priorities the earlier element stays first. -/
def ParserEngine.insertByPriority (t : Template) : List Template → List Template
  | [] => [t]
  | u :: us =>
    if ParserEngine.get_priority u ≤ ParserEngine.get_priority t then t :: u :: us
    else u :: ParserEngine.insertByPriority t us

/-- Stable sort by descending priority: extensionally equal to Python's
`sorted(templates, key=get_priority, reverse=True)` (both are the unique
stable descending order). -/
def ParserEngine.sortByPriority : List Template → List Template
  | [] => []
  | t :: ts => ParserEngine.insertByPriority t (ParserEngine.sortByPriority ts)

/-- `ParserEngine._get_applicable_templates`: the channel's active
templates, stably sorted by descending priority. -/
def ParserEngine.get_applicable_templates (channel_id : Nat) (templates_db : List Template) :
    List Template :=
  ParserEngine.sortByPriority
    (templates_db.filter (fun t => t.channel_id == channel_id && t.is_active))

/-- The template loop of `parse_message`, instrumented with the list of
templates actually attempted: stop at the first template whose extraction
returns a Signal, treat any exception as "try the next template". -/
def ParserEngine.tryTemplatesTrace (message : Message) (channel_id : Nat) (user_id : String) :
    List Template → Option Signal × List Template
  | [] => (none, [])
  | t :: ts =>
    match ParserEngine.extract_from_template message t channel_id user_id with
    | .ok s => (some s, [t])
    | .error _ =>
      let r := ParserEngine.tryTemplatesTrace message channel_id user_id ts
      (r.1, t :: r.2)

/-- `ParserEngine.parse_message`: no applicable template is an error
result; otherwise the first successful template wins, and exhausting all
templates yields the aggregate error. -/
def ParserEngine.parse_message (message : Message) (channel_id : Nat) (user_id : String)
    (templates_db : List Template) : Option Signal × Option String :=
  let templates := ParserEngine.get_applicable_templates channel_id templates_db
  if templates.isEmpty then (none, some "No active templates found for channel")
  else
    match (ParserEngine.tryTemplatesTrace message channel_id user_id templates).1 with
    | some s => (some s, none)
    | none => (none, some "No template successfully extracted signal from message")

/-- The `stats` dict of `parse_batch`. -/
structure BatchStats where
  total_messages : Nat
  successful_extractions : Nat
  failed_extractions : Nat
  errors : List String
deriving DecidableEq

/-- The message loop of `parse_batch`. -/
def ParserEngine.parse_batch_go (channel_id : Nat) (user_id : String)
    (templates_db : List Template) :
    List Message → List Signal → BatchStats → List Signal × BatchStats
  | [], signals, stats => (signals, stats)
  | m :: ms, signals, stats =>
    match ParserEngine.parse_message m channel_id user_id templates_db with
    | (some s, _) =>
      ParserEngine.parse_batch_go channel_id user_id templates_db ms (signals ++ [s])
        { stats with successful_extractions := stats.successful_extractions + 1 }
    | (none, err) =>
      ParserEngine.parse_batch_go channel_id user_id templates_db ms signals
        { stats with
          failed_extractions := stats.failed_extractions + 1
          errors := stats.errors ++ (match err with | some e => [e] | none => []) }

/-- `ParserEngine.parse_batch`: every message processed in order, aggregate
counts and per-message error strings. -/
def ParserEngine.parse_batch (messages : List Message) (channel_id : Nat) (user_id : String)
    (templates_db : List Template) : List Signal × BatchStats :=
  ParserEngine.parse_batch_go channel_id user_id templates_db messages []
    ⟨messages.length, 0, 0, []⟩

example :
    ((ParserEngine.parse_message ⟨1, 10, "EURUSD\n0".toList⟩ 7 "u"
        [⟨1, "T", 7, true,
          ⟨0, [("symbol", { extraction_method := "line", line_number := 0 }),
               ("entry_price", { extraction_method := "line", line_number := 1 })]⟩⟩]).1.map
      Signal.entry_price) = some 0 := by decide

/-! ## Helper lemmas: the extracted-data dict -/

theorem dget_nil (k : String) : dget [] k = none := rfl

theorem dget_append_left_none (d d2 : PyDict) (k : String) (h : dget d k = none) :
    dget (d ++ d2) k = dget d2 k := by
  induction d with
  | nil => simp
  | cons p rest ih =>
    simp only [dget, List.find?] at h ⊢
    cases hpk : (p.1 == k) with
    | true => simp [hpk] at h
    | false =>
      simp only [hpk] at h ⊢
      exact ih h

theorem dget_singleton_ne (n k : String) (v : Option Str) (h : n ≠ k) :
    dget [(n, v)] k = none := by
  simp [dget, List.find?, beq_eq_false_iff_ne.mpr h]

theorem dget_none_any_false (d : PyDict) (k : String) (h : dget d k = none) :
    d.any (fun p => p.1 == k) = false := by
  induction d with
  | nil => rfl
  | cons p rest ih =>
    simp only [dget, List.find?] at h
    cases hpk : (p.1 == k) with
    | true => simp [hpk] at h
    | false =>
      simp only [hpk] at h
      simp only [List.any_cons, hpk, Bool.false_or]
      exact ih h

theorem dset_fresh (d : PyDict) (k : String) (v : Option Str) (h : dget d k = none) :
    dset d k v = d ++ [(k, v)] := by
  simp [dset, dget_none_any_false d k h]

theorem dget_eq_some_iff_mem (d : PyDict) (hnd : (d.map Prod.fst).Nodup) (k : String)
    (v : Option Str) : dget d k = some v ↔ (k, v) ∈ d := by
  induction d with
  | nil => simp [dget]
  | cons p rest ih =>
    obtain ⟨n, w⟩ := p
    simp only [List.map_cons, List.nodup_cons] at hnd
    by_cases hk : n = k
    · subst hk
      simp only [dget, List.find?, beq_self_eq_true]
      constructor
      · intro h
        have : w = v := by simpa using h
        subst this
        exact List.mem_cons_self _ _
      · intro h
        rcases List.mem_cons.mp h with heq | hmem
        · simp [Prod.ext_iff] at heq
          simp [heq]
        · exact absurd (List.mem_map_of_mem Prod.fst hmem) hnd.1
    · simp only [dget, List.find?, beq_eq_false_iff_ne.mpr hk]
      rw [← dget]
      constructor
      · intro h
        exact List.mem_cons_of_mem _ ((ih hnd.2 ).mp h)
      · intro h
        rcases List.mem_cons.mp h with heq | hmem
        · exact absurd (congrArg Prod.fst heq).symm hk
        · exact (ih hnd.2).mpr hmem

/-! ## Helper lemmas: extraction engine -/

/-- A field config whose use makes `extract_field` raise: exactly the regex
method with a syntactically invalid pattern. -/
def isInvalidRegexCfg (fc : FieldConfig) : Prop :=
  fc.extraction_method = "regex" ∧ ∃ em, fc.regex_pattern = some (.invalid em)

theorem position_error_shape (m : Str) (c : FieldConfig) (e : PyErr)
    (h : TextPositionExtractionMethod.extract m c = .error e) : ∃ s, e = .otherError s := by
  simp only [TextPositionExtractionMethod.extract] at h
  split at h
  · simp at h
  · split at h
    · injection h with h
      exact ⟨_, h.symm⟩
    · split at h <;> simp at h

theorem extract_field_error_shape (message : Str) (fc : FieldConfig) (n : String) (e : PyErr)
    (h : ExtractionEngine.extract_field message fc n = .error e) :
    ∃ m, e = .extractionError m := by
  simp only [ExtractionEngine.extract_field] at h
  split at h
  · simp at h
  · split at h
    · injection h with h
      exact ⟨_, h.symm⟩
    · simp at h
    · split at h <;> simp at h

theorem invalid_regex_throws (message : Str) (fc : FieldConfig) (n : String) (em : String)
    (hm : fc.extraction_method = "regex") (hp : fc.regex_pattern = some (.invalid em)) :
    ExtractionEngine.extract_field message fc n =
      .error (.extractionError ("Invalid regex pattern: " ++ em)) := by
  simp [ExtractionEngine.extract_field, hm, hp, RegexExtractionMethod.extract]

theorem extract_field_no_throw (message : Str) (fc : FieldConfig) (n : String)
    (hok : ¬ isInvalidRegexCfg fc) (e : PyErr) :
    ExtractionEngine.extract_field message fc n ≠ .error e := by
  intro h
  by_cases hc : (["regex", "line", "marker", "position"].contains fc.extraction_method) = true
  · have hmem : fc.extraction_method ∈ (["regex", "line", "marker", "position"] : List String) := by
      have h2 := hc
      rw [List.contains_eq_any_beq] at h2
      rcases List.any_eq_true.mp h2 with ⟨x, hx, hbeq⟩
      have : fc.extraction_method = x := by simpa using hbeq
      rw [this]
      exact hx
    simp only [List.mem_cons, List.mem_singleton, List.not_mem_nil, or_false] at hmem
    rcases hmem with hm | hm | hm | hm
    · rcases hpat : fc.regex_pattern with _ | pat
      · simp [ExtractionEngine.extract_field, hm, hpat, RegexExtractionMethod.extract] at h
      · rcases pat with em | f
        · exact hok ⟨hm, em, hpat⟩
        · simp only [ExtractionEngine.extract_field, hm, hpat,
            RegexExtractionMethod.extract] at h
          simp at h
          split at h <;> simp at h
    · simp only [ExtractionEngine.extract_field, hm] at h
      simp at h
      split at h <;> simp at h
    · simp only [ExtractionEngine.extract_field, hm] at h
      simp at h
      split at h <;> simp at h
    · simp only [ExtractionEngine.extract_field, hm] at h
      simp at h
      split at h
      · rename_i m hatt
        rcases position_error_shape _ _ _ hatt with ⟨s, hs⟩
        simp at hs
      · simp at h
      · split at h <;> simp at h
  · simp only [ExtractionEngine.extract_field, Bool.not_eq_true] at h
    rw [Bool.not_eq_true] at hc
    rw [hc] at h
    simp at h

/-- The entries `extract_all_fields` stores: one per field whose
`extract_field` call reports success, in field order, keyed by the field
name, holding the (possibly absent) extracted value. -/
def successEntries (message : Str) (fields : List (String × FieldConfig)) : PyDict :=
  fields.filterMap (fun p =>
    match ExtractionEngine.extract_field message p.2 p.1 with
    | .ok (v, true) => some (p.1, v)
    | _ => none)

/-- The error entries `extract_all_fields` collects: one per required field
whose `extract_field` call reports failure, in field order. -/
def errEntries (message : Str) (fields : List (String × FieldConfig)) : List String :=
  fields.filterMap (fun p =>
    match ExtractionEngine.extract_field message p.2 p.1 with
    | .ok (_, false) => if p.2.required then some (reqErrMsg p.1) else none
    | _ => none)

theorem extract_go_ok (message : Str) :
    ∀ (fields : List (String × FieldConfig)) (data : PyDict) (errs : List String),
      (∀ p ∈ fields, ∀ e, ExtractionEngine.extract_field message p.2 p.1 ≠ .error e) →
      (∀ p ∈ fields, dget data p.1 = none) →
      ((fields.map Prod.fst).Nodup) →
      ExtractionEngine.extract_all_fields_go message fields data errs =
        .ok (data ++ successEntries message fields, errs ++ errEntries message fields) := by
  intro fields
  induction fields with
  | nil =>
    intro data errs _ _ _
    simp [ExtractionEngine.extract_all_fields_go, successEntries, errEntries]
  | cons p rest ih =>
    intro data errs hThrow hFresh hNodup
    obtain ⟨n, fc⟩ := p
    simp only [List.map_cons, List.nodup_cons] at hNodup
    rcases hef : ExtractionEngine.extract_field message fc n with e | ⟨v, s⟩
    · exact absurd hef (hThrow (n, fc) (List.mem_cons_self _ _) e)
    · cases s
      · by_cases hreq : fc.required
        · simp only [ExtractionEngine.extract_all_fields_go, hef]
          rw [if_neg (show ¬(false = true) by decide), if_pos hreq]
          rw [ih data (errs ++ [reqErrMsg n])
            (fun p hp e => hThrow p (List.mem_cons_of_mem _ hp) e)
            (fun p hp => hFresh p (List.mem_cons_of_mem _ hp)) hNodup.2]
          simp [successEntries, errEntries, List.filterMap_cons, hef, hreq]
        · simp only [ExtractionEngine.extract_all_fields_go, hef]
          rw [if_neg (show ¬(false = true) by decide), if_neg hreq]
          rw [ih data errs
            (fun p hp e => hThrow p (List.mem_cons_of_mem _ hp) e)
            (fun p hp => hFresh p (List.mem_cons_of_mem _ hp)) hNodup.2]
          simp [successEntries, errEntries, List.filterMap_cons, hef, hreq]
      · have hfr : dget data n = none := hFresh (n, fc) (List.mem_cons_self _ _)
        simp only [ExtractionEngine.extract_all_fields_go, hef]
        rw [if_pos trivial]
        rw [dset_fresh data n v hfr]
        rw [ih (data ++ [(n, v)]) errs
          (fun p hp e => hThrow p (List.mem_cons_of_mem _ hp) e)
          (fun p hp => by
            rw [dget_append_left_none _ _ _ (hFresh p (List.mem_cons_of_mem _ hp))]
            exact dget_singleton_ne n p.1 v
              (fun hEq => hNodup.1 (hEq ▸ List.mem_map_of_mem Prod.fst hp)))
          hNodup.2]
        simp [successEntries, errEntries, List.filterMap_cons, hef, List.append_assoc]

theorem extract_go_ok_no_throw (message : Str) :
    ∀ (fields : List (String × FieldConfig)) (data : PyDict) (errs : List String)
      (out : PyDict × List String),
      ExtractionEngine.extract_all_fields_go message fields data errs = .ok out →
      ∀ p ∈ fields, ∀ e, ExtractionEngine.extract_field message p.2 p.1 ≠ .error e := by
  intro fields
  induction fields with
  | nil =>
    intro data errs out _ p hp
    simp at hp
  | cons q rest ih =>
    intro data errs out h p hp e hpe
    obtain ⟨n, fc⟩ := q
    rcases hef : ExtractionEngine.extract_field message fc n with e' | ⟨v, s⟩
    · simp only [ExtractionEngine.extract_all_fields_go, hef] at h
      simp at h
    · rcases List.mem_cons.mp hp with rfl | hmem
      · simp only at hpe
        rw [hef] at hpe
        simp at hpe
      · simp only [ExtractionEngine.extract_all_fields_go, hef] at h
        cases s
        · by_cases hreq : fc.required
          · rw [if_neg (show ¬(false = true) by decide), if_pos hreq] at h
            exact ih _ _ _ h p hmem e hpe
          · rw [if_neg (show ¬(false = true) by decide), if_neg hreq] at h
            exact ih _ _ _ h p hmem e hpe
        · rw [if_pos rfl] at h
          exact ih _ _ _ h p hmem e hpe

theorem extract_go_throws (message : Str) :
    ∀ (fields : List (String × FieldConfig)) (data : PyDict) (errs : List String),
      (∃ p ∈ fields, isInvalidRegexCfg p.2) →
      ∃ m, ExtractionEngine.extract_all_fields_go message fields data errs =
        .error (.extractionError m) := by
  intro fields
  induction fields with
  | nil =>
    rintro data errs ⟨p, hp, _⟩
    simp at hp
  | cons q rest ih =>
    intro data errs hex
    obtain ⟨n, fc⟩ := q
    rcases hef : ExtractionEngine.extract_field message fc n with e' | ⟨v, s⟩
    · rcases extract_field_error_shape _ _ _ _ hef with ⟨m, rfl⟩
      exact ⟨m, by simp [ExtractionEngine.extract_all_fields_go, hef]⟩
    · rcases hex with ⟨p, hp, hinv⟩
      rcases List.mem_cons.mp hp with rfl | hmem
      · simp only [isInvalidRegexCfg] at hinv
        rcases hinv with ⟨hm, em, hpat⟩
        rw [invalid_regex_throws message _ n em hm hpat] at hef
        simp at hef
      · cases s
        · by_cases hreq : fc.required
          · obtain ⟨m, hgo⟩ := ih data (errs ++ [reqErrMsg n]) ⟨p, hmem, hinv⟩
            refine ⟨m, ?_⟩
            simp only [ExtractionEngine.extract_all_fields_go, hef]
            rw [if_neg (show ¬(false = true) by decide), if_pos hreq]
            exact hgo
          · obtain ⟨m, hgo⟩ := ih data errs ⟨p, hmem, hinv⟩
            refine ⟨m, ?_⟩
            simp only [ExtractionEngine.extract_all_fields_go, hef]
            rw [if_neg (show ¬(false = true) by decide), if_neg hreq]
            exact hgo
        · obtain ⟨m, hgo⟩ := ih (dset data n v) errs ⟨p, hmem, hinv⟩
          refine ⟨m, ?_⟩
          simp only [ExtractionEngine.extract_all_fields_go, hef]
          rw [if_pos trivial]
          exact hgo

theorem successEntries_keys_sublist (message : Str) (fields : List (String × FieldConfig)) :
    ((successEntries message fields).map Prod.fst).Sublist (fields.map Prod.fst) := by
  induction fields with
  | nil => simp [successEntries]
  | cons q rest ih =>
    simp only [successEntries, List.filterMap_cons, List.map_cons]
    rcases hef : ExtractionEngine.extract_field message q.2 q.1 with e | ⟨v, s⟩
    · simp only [hef]
      exact ih.cons q.1
    · cases s
      · simp only [hef]
        exact ih.cons q.1
      · simp only [hef]
        exact ih.cons₂ q.1

theorem errEntries_sublist (message : Str) (fields : List (String × FieldConfig)) :
    (errEntries message fields).Sublist (fields.map (fun p => reqErrMsg p.1)) := by
  induction fields with
  | nil => simp [errEntries]
  | cons q rest ih =>
    simp only [errEntries, List.filterMap_cons, List.map_cons]
    rcases hef : ExtractionEngine.extract_field message q.2 q.1 with e | ⟨v, s⟩
    · simp only [hef]
      exact ih.cons (reqErrMsg q.1)
    · cases s
      · by_cases hreq : q.2.required
        · simp only [hef, if_pos hreq]
          exact ih.cons₂ (reqErrMsg q.1)
        · simp only [hef, if_neg hreq]
          exact ih.cons (reqErrMsg q.1)
      · simp only [hef]
        exact ih.cons (reqErrMsg q.1)

theorem reqErrMsg_inj (a b : String) (h : reqErrMsg a = reqErrMsg b) : a = b := by
  have hd := congrArg String.data h
  simp only [reqErrMsg, String.data_append] at hd
  have h1 := List.append_cancel_right hd
  have h2 := List.append_cancel_left h1
  exact String.ext h2

theorem assoc_mem_unique {β : Type} (l : List (String × β)) (hnd : (l.map Prod.fst).Nodup)
    (n : String) (a b : β) (h1 : (n, a) ∈ l) (h2 : (n, b) ∈ l) : a = b := by
  induction l with
  | nil => simp at h1
  | cons q rest ih =>
    simp only [List.map_cons, List.nodup_cons] at hnd
    rcases List.mem_cons.mp h1 with e1 | m1 <;> rcases List.mem_cons.mp h2 with e2 | m2
    · exact congrArg Prod.snd (e1.trans e2.symm)
    · exfalso
      apply hnd.1
      rw [← e1]
      simpa using List.mem_map_of_mem Prod.fst m2
    · exfalso
      apply hnd.1
      rw [← e2]
      simpa using List.mem_map_of_mem Prod.fst m1
    · exact ih hnd.2 m1 m2

/-! ## Claims C2, C5, C8: extraction-engine behaviour -/

/-- Claim C2, counterexample to the claim as stated: a non-required `line`
field whose strategy finds nothing (line index out of bounds) DOES appear
as a key of the result map, stored with an absent value. -/
theorem C2_counterexample :
    ExtractionEngine.extract_all_fields "hello".toList
        ⟨0, [("x", { extraction_method := "line", line_number := 5 })]⟩ =
      .ok ([("x", none)], [])
    ∧ dget [("x", none)] "x" = some none := by
  decide

/-- Claim C2 (amended): when `extract_all_fields` returns `(data, errors)`
(field names distinct, as dict keys are), `data` has an entry for a field
exactly when that field's `extract_field` call reported success — including
a non-required field whose strategy found nothing, which appears as a key
mapped to an absent value. -/
theorem C2_amended (message : Str) (cfg : ExtractionConfig) (data : PyDict) (errs : List String)
    (hnd : (cfg.fields.map Prod.fst).Nodup)
    (h : ExtractionEngine.extract_all_fields message cfg = .ok (data, errs)) :
    (∀ n v, dget data n = some v ↔
      ∃ fc, (n, fc) ∈ cfg.fields ∧ ExtractionEngine.extract_field message fc n = .ok (v, true))
    ∧ (∀ n fc, (n, fc) ∈ cfg.fields → fc.required = false →
        ExtractionEngine.extract_field message fc n = .ok (none, true) →
        dget data n = some none) := by
  have hnothrow := extract_go_ok_no_throw message cfg.fields [] [] (data, errs) h
  have hgo := extract_go_ok message cfg.fields [] [] hnothrow (fun p _ => rfl) hnd
  rw [ExtractionEngine.extract_all_fields] at h
  rw [hgo] at h
  simp only [Except.ok.injEq, Prod.mk.injEq, List.nil_append] at h
  obtain ⟨hdata, herrs⟩ := h
  subst hdata
  have hndS : ((successEntries message cfg.fields).map Prod.fst).Nodup :=
    hnd.sublist (successEntries_keys_sublist message cfg.fields)
  constructor
  · intro n v
    rw [dget_eq_some_iff_mem _ hndS]
    simp only [successEntries, List.mem_filterMap]
    constructor
    · rintro ⟨p, hp, hfp⟩
      obtain ⟨n', fc⟩ := p
      rcases hef : ExtractionEngine.extract_field message fc n' with e | ⟨v', s⟩
      · rw [hef] at hfp
        simp at hfp
      · cases s
        · rw [hef] at hfp
          simp at hfp
        · rw [hef] at hfp
          simp only [Option.some.injEq, Prod.mk.injEq] at hfp
          obtain ⟨rfl, rfl⟩ := hfp
          exact ⟨fc, hp, hef⟩
    · rintro ⟨fc, hp, hef⟩
      exact ⟨(n, fc), hp, by simp [hef]⟩
  · intro n fc hp _ hef
    rw [dget_eq_some_iff_mem _ hndS]
    simp only [successEntries, List.mem_filterMap]
    exact ⟨(n, fc), hp, by simp [hef]⟩

/-- Claim C2, witness for the amended theorem at the counterexample input. -/
theorem C2_witness :
    dget [("x", none)] "x" = some none :=
  (C2_amended "hello".toList ⟨0, [("x", { extraction_method := "line", line_number := 5 })]⟩
      [("x", none)] [] (by decide) (by decide)).2 "x"
    { extraction_method := "line", line_number := 5 }
    (List.mem_singleton.mpr rfl) rfl (by decide)

/-- Claim C5: a regex field with a syntactically invalid pattern makes
`extract_field` raise an ExtractionError, makes `extract_all_fields`
propagate an ExtractionError, and makes `test_extraction` return
success=false with empty data and that single configuration error entry. -/
theorem C5_claim (message : Str) (cfg : ExtractionConfig) (n : String) (fc : FieldConfig)
    (em : String) (hmem : (n, fc) ∈ cfg.fields)
    (hm : fc.extraction_method = "regex") (hp : fc.regex_pattern = some (.invalid em)) :
    ExtractionEngine.extract_field message fc n =
      .error (.extractionError ("Invalid regex pattern: " ++ em))
    ∧ (∃ m, ExtractionEngine.extract_all_fields message cfg = .error (.extractionError m))
    ∧ (∃ m, ExtractionEngine.test_extraction message cfg =
        ⟨false, [], [m]⟩) := by
  refine ⟨invalid_regex_throws message fc n em hm hp, ?_, ?_⟩
  · exact extract_go_throws message cfg.fields [] [] ⟨(n, fc), hmem, hm, em, hp⟩
  · obtain ⟨m, hm2⟩ := extract_go_throws message cfg.fields [] [] ⟨(n, fc), hmem, hm, em, hp⟩
    refine ⟨m, ?_⟩
    simp only [ExtractionEngine.test_extraction, ExtractionEngine.extract_all_fields, hm2]
    rfl

/-- Claim C5, witness: a concrete config with one invalid regex field. -/
theorem C5_witness :
    ∃ m, ExtractionEngine.test_extraction "msg".toList
        ⟨0, [("x", { extraction_method := "regex",
                     regex_pattern := some (.invalid "boom") })]⟩ =
      ⟨false, [], [m]⟩ :=
  (C5_claim "msg".toList
      ⟨0, [("x", { extraction_method := "regex", regex_pattern := some (.invalid "boom") })]⟩
      "x" { extraction_method := "regex", regex_pattern := some (.invalid "boom") }
      "boom" (List.mem_singleton.mpr rfl) rfl rfl).2.2

/-- Claim C8: with well-formed field configs (no invalid regex pattern) and
distinct field names, `extract_all_fields` succeeds with the per-field
error list `errEntries` computed over every configured field; each required
field whose extraction failed contributes exactly one entry naming it, and
no entry names a non-required field. -/
theorem C8_claim (message : Str) (cfg : ExtractionConfig)
    (hnd : (cfg.fields.map Prod.fst).Nodup)
    (hwf : ∀ p ∈ cfg.fields, ¬ isInvalidRegexCfg p.2) :
    ExtractionEngine.extract_all_fields message cfg =
      .ok (successEntries message cfg.fields, errEntries message cfg.fields)
    ∧ (∀ n fc, (n, fc) ∈ cfg.fields → fc.required = true →
        ExtractionEngine.extract_field message fc n = .ok (none, false) →
        (errEntries message cfg.fields).count (reqErrMsg n) = 1)
    ∧ (∀ n fc, (n, fc) ∈ cfg.fields → fc.required = false →
        ∀ s ∈ errEntries message cfg.fields, s ≠ reqErrMsg n) := by
  have hnothrow : ∀ p ∈ cfg.fields, ∀ e,
      ExtractionEngine.extract_field message p.2 p.1 ≠ .error e :=
    fun p hp e => extract_field_no_throw message p.2 p.1 (hwf p hp) e
  have hgo := extract_go_ok message cfg.fields [] [] hnothrow (fun p _ => rfl) hnd
  have hndE : (errEntries message cfg.fields).Nodup := by
    have hmapn : (cfg.fields.map (fun p => reqErrMsg p.1)).Nodup := by
      rw [show (fun p : String × FieldConfig => reqErrMsg p.1) = reqErrMsg ∘ Prod.fst from rfl,
        ← List.map_map]
      exact hnd.map (fun a b hab => reqErrMsg_inj a b hab)
    exact hmapn.sublist (errEntries_sublist message cfg.fields)
  refine ⟨by simpa [ExtractionEngine.extract_all_fields] using hgo, ?_, ?_⟩
  · intro n fc hp hreq hef
    have hm : reqErrMsg n ∈ errEntries message cfg.fields := by
      simp only [errEntries, List.mem_filterMap]
      exact ⟨(n, fc), hp, by simp [hef, hreq]⟩
    exact List.count_eq_one_of_mem hndE hm
  · intro n fc hp hreq s hs heq
    simp only [errEntries, List.mem_filterMap] at hs
    obtain ⟨⟨n', fc'⟩, hp', hfp⟩ := hs
    rcases hef : ExtractionEngine.extract_field message fc' n' with e | ⟨v', s'⟩
    · rw [hef] at hfp
      simp at hfp
    · cases s'
      · rw [hef] at hfp
        by_cases hreq' : fc'.required
        · rw [if_pos hreq'] at hfp
          simp only [Option.some.injEq] at hfp
          have hn : n' = n := reqErrMsg_inj n' n (hfp.trans heq)
          subst hn
          have : fc' = fc := assoc_mem_unique cfg.fields hnd n' fc' fc hp' hp
          rw [this] at hreq'
          rw [hreq] at hreq'
          exact absurd hreq' (by decide)
        · rw [if_neg hreq'] at hfp
          simp at hfp
      · rw [hef] at hfp
        simp at hfp

/-- Claim C8, witness: one required and one non-required absent field. -/
theorem C8_witness :
    (errEntries "x".toList
      [("a", { extraction_method := "line", line_number := 5, required := true }),
       ("b", { extraction_method := "line", line_number := 6 })]).count (reqErrMsg "a") = 1 :=
  (C8_claim "x".toList
      ⟨0, [("a", { extraction_method := "line", line_number := 5, required := true }),
           ("b", { extraction_method := "line", line_number := 6 })]⟩
      (by decide)
      (by
        intro p hp
        simp only [List.mem_cons, List.mem_singleton, List.not_mem_nil, or_false] at hp
        rcases hp with rfl | rfl <;> exact fun hinv => by
          rcases hinv with ⟨hm, _⟩
          simp at hm)).2.1 "a"
    { extraction_method := "line", line_number := 5, required := true }
    (List.mem_cons_self _ _) rfl (by decide)

/-! ## Claims C7, C10, C3, C6: validator and confidence score -/

/-- Claim C7: risk and reward are computed directionally, a non-positive
risk or reward is a ValidationError, otherwise the result is reward/risk
rounded to two decimals; with the two concrete examples of the spec. -/
theorem C7_claim (entry stop_loss take_profit : Rat) (signal_type : Str) :
    ((if signal_type == "BUY".toList then entry - stop_loss else stop_loss - entry) ≤ 0 ∨
     (if signal_type == "BUY".toList then take_profit - entry else entry - take_profit) ≤ 0 →
      ∃ m, SignalValidator.calculate_risk_reward entry stop_loss take_profit signal_type =
        .error (.validationError m (some "risk_reward")))
    ∧ (0 < (if signal_type == "BUY".toList then entry - stop_loss else stop_loss - entry) →
       0 < (if signal_type == "BUY".toList then take_profit - entry else entry - take_profit) →
       SignalValidator.calculate_risk_reward entry stop_loss take_profit signal_type =
         .ok (roundHalfEven2
           ((if signal_type == "BUY".toList then take_profit - entry else entry - take_profit) /
            (if signal_type == "BUY".toList then entry - stop_loss else stop_loss - entry))))
    ∧ SignalValidator.calculate_risk_reward 100 95 110 "BUY".toList = .ok 2
    ∧ SignalValidator.calculate_risk_reward (1.0950 : Rat) (1.1000 : Rat) (1.0900 : Rat)
        "SELL".toList = .ok 1 := by
  refine ⟨?_, ?_, by decide, by decide⟩
  · intro h
    simp only [SignalValidator.calculate_risk_reward]
    rcases h with h | h
    · rw [if_pos h]
      exact ⟨_, rfl⟩
    · by_cases hR : (if signal_type == "BUY".toList then entry - stop_loss
          else stop_loss - entry) ≤ 0
      · rw [if_pos hR]
        exact ⟨_, rfl⟩
      · rw [if_neg hR, if_pos h]
        exact ⟨_, rfl⟩
  · intro h1 h2
    simp only [SignalValidator.calculate_risk_reward]
    rw [if_neg (not_le.mpr h1), if_neg (not_le.mpr h2)]

/-- Claim C7, witness instantiating the success case. -/
theorem C7_witness :
    SignalValidator.calculate_risk_reward 100 95 110 "BUY".toList =
      .ok (roundHalfEven2
        ((if ("BUY".toList == "BUY".toList) then (110 : Rat) - 100 else 100 - 110) /
         (if ("BUY".toList == "BUY".toList) then (100 : Rat) - 95 else 95 - 100))) :=
  (C7_claim 100 95 110 "BUY".toList).2.1 (by decide) (by decide)

/-- Claim C10: the BUY-side entry/stop-loss rule is applied only for the
exact string "BUY"; every other signal type (including "LONG") is checked
with the SELL-side rule, so a LONG signal with entry above its stop-loss
fails price-level validation. -/
theorem C10_claim :
    (∀ (entry stop_loss : Rat) (tps : List Rat) (ty : Str), ty ≠ "BUY".toList →
      stop_loss ≤ entry →
      (SignalValidator.validate_price_levels entry stop_loss tps ty).1 = false)
    ∧ (∀ (entry stop_loss : Rat) (tps : List Rat), entry ≤ stop_loss →
      (SignalValidator.validate_price_levels entry stop_loss tps "BUY".toList).1 = false)
    ∧ (∀ entry stop_loss : Rat, stop_loss < entry →
      (SignalValidator.validate_price_levels entry stop_loss [] "BUY".toList).1 = true)
    ∧ (∀ entry stop_loss : Rat, entry < stop_loss →
      (SignalValidator.validate_price_levels entry stop_loss [] "LONG".toList).1 = true)
    ∧ (SignalValidator.validate_price_levels 100 95 [] "LONG".toList).1 = false := by
  refine ⟨?_, ?_, ?_, ?_, by decide⟩
  · intro entry sl tps ty hty hle
    rw [SignalValidator.validate_price_levels]
    rw [beq_eq_false_iff_ne.mpr hty]
    simp [SignalValidator.validate_sell_signal, hle]
  · intro entry sl tps hle
    rw [SignalValidator.validate_price_levels]
    simp [SignalValidator.validate_buy_signal, hle]
  · intro entry sl hlt
    rw [SignalValidator.validate_price_levels]
    simp [SignalValidator.validate_buy_signal, not_le.mpr hlt,
      SignalValidator.validate_price_levels_go]
  · intro entry sl hlt
    rw [SignalValidator.validate_price_levels]
    rw [beq_eq_false_iff_ne.mpr (by decide : ("LONG".toList : Str) ≠ "BUY".toList)]
    simp [SignalValidator.validate_sell_signal, not_le.mpr hlt,
      SignalValidator.validate_price_levels_go]

/-- Claim C10, witness: LONG with entry 100 above stop-loss 95 fails. -/
theorem C10_witness :
    (SignalValidator.validate_price_levels 100 95 [(105 : Rat)] "LONG".toList).1 = false :=
  C10_claim.1 100 95 [(105 : Rat)] "LONG".toList (by decide) (by norm_num)

/-- Claim C3, counterexample to the claim as stated: a template whose
`entry_price` field extracts the text "0" makes `parse_message` return a
Signal whose entry_price is 0, not strictly positive. -/
theorem C3_counterexample :
    ((ParserEngine.parse_message ⟨1, 10, "EURUSD\n0".toList⟩ 7 "u"
        [⟨1, "T", 7, true,
          ⟨0, [("symbol", { extraction_method := "line", line_number := 0 }),
               ("entry_price", { extraction_method := "line", line_number := 1 })]⟩⟩]).1.map
      Signal.entry_price) = some 0 := by
  decide

/-- Claim C3 (amended): `validate_price` does reject a non-positive price
with a ValidationError, but `parse_message` never invokes it, so a returned
Signal's entry price is just the decimal value of the extracted text and
need not be positive. -/
theorem C3_amended (price : Rat) (field_name : String) :
    (∃ e, SignalValidator.validate_price price field_name = .error e) ↔ price ≤ 0 := by
  by_cases h : price ≤ 0
  · simp [SignalValidator.validate_price, h]
  · simp [SignalValidator.validate_price, h]

/-- Claim C3, witness for the amended theorem at price 0. -/
theorem C3_witness : ∃ e, SignalValidator.validate_price 0 "entry_price" = .error e :=
  (C3_amended 0 "entry_price").mpr le_rfl

/-- Claim C6: the confidence score is 1.0 minus 0.15 for an absent
stop-loss, 0.15 for absent/empty take-profits, 0.05 for an absent
timeframe, 0.05 for an absent-or-BUY signal type, clamped to [0, 1]; the
two concrete data sets of the spec give 0.60 and 1.0. -/
theorem C6_claim :
    (∀ data : PyDict,
      ParserEngine.calculate_confidence_score data =
        max 0 (min 1 ((1 : Rat)
          - (if truthy (flatGet data "stop_loss") then 0 else 15/100)
          - (if truthy (flatGet data "take_profits") then 0 else 15/100)
          - (if truthy (flatGet data "timeframe") then 0 else 5/100)
          - (if !truthy (flatGet data "signal_type")
                || flatGet data "signal_type" == some "BUY".toList then 5/100 else 0))))
    ∧ ParserEngine.calculate_confidence_score
        [("symbol", some "EURUSD".toList), ("entry_price", some "1.0850".toList)] = 60/100
    ∧ ParserEngine.calculate_confidence_score
        [("symbol", some "EURUSD".toList), ("entry_price", some "1.0850".toList),
         ("stop_loss", some "1.0800".toList), ("take_profits", some "1.0900".toList),
         ("signal_type", some "SELL".toList), ("timeframe", some "1H".toList)] = 1 := by
  refine ⟨?_, by decide, by decide⟩
  intro data
  simp only [ParserEngine.calculate_confidence_score]
  cases h1 : truthy (flatGet data "stop_loss") <;>
    cases h2 : truthy (flatGet data "take_profits") <;>
      cases h3 : truthy (flatGet data "timeframe") <;>
        cases h4 : (!truthy (flatGet data "signal_type")
          || flatGet data "signal_type" == some "BUY".toList) <;>
  decide

/-! ## Claim C1: template order inside parse_message -/

/-- Whether one template attempt succeeds (`_extract_from_template` returns
a Signal rather than raising). -/
def attemptOk (message : Message) (channel_id : Nat) (user_id : String) (t : Template) : Bool :=
  match ParserEngine.extract_from_template message t channel_id user_id with
  | .ok _ => true
  | .error _ => false

/-- The Signal a template attempt yields, if any. -/
def attemptSignal (message : Message) (channel_id : Nat) (user_id : String) (t : Template) :
    Option Signal :=
  match ParserEngine.extract_from_template message t channel_id user_id with
  | .ok s => some s
  | .error _ => none

theorem tryTemplatesTrace_eq (message : Message) (ch : Nat) (uid : String) :
    ∀ ts : List Template,
      ParserEngine.tryTemplatesTrace message ch uid ts =
        ((ts.dropWhile (fun t => !attemptOk message ch uid t)).head?.bind
          (attemptSignal message ch uid),
         ts.takeWhile (fun t => !attemptOk message ch uid t) ++
          (ts.dropWhile (fun t => !attemptOk message ch uid t)).take 1) := by
  intro ts
  induction ts with
  | nil => simp [ParserEngine.tryTemplatesTrace]
  | cons t ts ih =>
    rcases hef : ParserEngine.extract_from_template message t ch uid with e | s
    · have hok : attemptOk message ch uid t = false := by simp [attemptOk, hef]
      simp only [ParserEngine.tryTemplatesTrace, hef]
      rw [List.dropWhile_cons, List.takeWhile_cons]
      simp [hok, ih]
    · have hok : attemptOk message ch uid t = true := by simp [attemptOk, hef]
      simp only [ParserEngine.tryTemplatesTrace, hef]
      rw [List.dropWhile_cons, List.takeWhile_cons]
      simp [hok, attemptSignal, hef]

theorem insertByPriority_perm (t : Template) (l : List Template) :
    (ParserEngine.insertByPriority t l).Perm (t :: l) := by
  induction l with
  | nil => exact .refl _
  | cons u us ih =>
    rw [ParserEngine.insertByPriority]
    split
    · exact .refl _
    · exact .trans (.cons u ih) (.swap t u us)

theorem sortByPriority_perm (l : List Template) :
    (ParserEngine.sortByPriority l).Perm l := by
  induction l with
  | nil => exact .refl _
  | cons t ts ih =>
    exact .trans (insertByPriority_perm t (ParserEngine.sortByPriority ts)) (.cons t ih)

theorem insertByPriority_sorted (t : Template) (l : List Template)
    (h : l.Pairwise (fun a b => ParserEngine.get_priority b ≤ ParserEngine.get_priority a)) :
    (ParserEngine.insertByPriority t l).Pairwise
      (fun a b => ParserEngine.get_priority b ≤ ParserEngine.get_priority a) := by
  induction l with
  | nil => simp [ParserEngine.insertByPriority]
  | cons u us ih =>
    rw [ParserEngine.insertByPriority]
    obtain ⟨hu, hus⟩ := List.pairwise_cons.mp h
    split
    · rename_i hle
      apply List.Pairwise.cons
      · intro b hb
        rcases List.mem_cons.mp hb with rfl | hbus
        · exact hle
        · exact le_trans (hu b hbus) hle
      · exact h
    · rename_i hgt
      apply List.Pairwise.cons
      · intro b hb
        rcases List.mem_cons.mp ((insertByPriority_perm t us).mem_iff.mp hb) with rfl | hbus
        · exact le_of_not_le hgt
        · exact hu b hbus
      · exact ih hus

theorem sortByPriority_sorted (l : List Template) :
    (ParserEngine.sortByPriority l).Pairwise
      (fun a b => ParserEngine.get_priority b ≤ ParserEngine.get_priority a) := by
  induction l with
  | nil => simp [ParserEngine.sortByPriority]
  | cons t ts ih => exact insertByPriority_sorted t _ ih

/-- Claim C1: when the channel's active templates have pairwise distinct
priorities, `parse_message` tries them in strictly descending priority
order — the attempted prefix is the failing templates followed by the
first success, later templates are never attempted — and returns the first
success's Signal. -/
theorem C1_claim (message : Message) (channel_id : Nat) (user_id : String)
    (templates_db : List Template)
    (hdist : (templates_db.filter
        (fun t => t.channel_id == channel_id && t.is_active)).Pairwise
      (fun a b => ParserEngine.get_priority a ≠ ParserEngine.get_priority b)) :
    (ParserEngine.get_applicable_templates channel_id templates_db).Pairwise
      (fun a b => ParserEngine.get_priority b < ParserEngine.get_priority a)
    ∧ ParserEngine.tryTemplatesTrace message channel_id user_id
        (ParserEngine.get_applicable_templates channel_id templates_db) =
      (((ParserEngine.get_applicable_templates channel_id templates_db).dropWhile
          (fun t => !attemptOk message channel_id user_id t)).head?.bind
        (attemptSignal message channel_id user_id),
       (ParserEngine.get_applicable_templates channel_id templates_db).takeWhile
          (fun t => !attemptOk message channel_id user_id t) ++
       ((ParserEngine.get_applicable_templates channel_id templates_db).dropWhile
          (fun t => !attemptOk message channel_id user_id t)).take 1)
    ∧ (ParserEngine.parse_message message channel_id user_id templates_db).1 =
        (if (ParserEngine.get_applicable_templates channel_id templates_db).isEmpty then none
         else ((ParserEngine.get_applicable_templates channel_id templates_db).dropWhile
            (fun t => !attemptOk message channel_id user_id t)).head?.bind
          (attemptSignal message channel_id user_id)) := by
  refine ⟨?_, tryTemplatesTrace_eq message channel_id user_id _, ?_⟩
  · have hsorted := sortByPriority_sorted
      (templates_db.filter (fun t => t.channel_id == channel_id && t.is_active))
    have hperm := sortByPriority_perm
      (templates_db.filter (fun t => t.channel_id == channel_id && t.is_active))
    have hne : (ParserEngine.sortByPriority
        (templates_db.filter (fun t => t.channel_id == channel_id && t.is_active))).Pairwise
        (fun a b => ParserEngine.get_priority a ≠ ParserEngine.get_priority b) :=
      (hperm.pairwise_iff (fun hab => hab.symm)).mpr hdist
    exact (hsorted.and hne).imp
      (fun hab => lt_of_le_of_ne hab.1 (Ne.symm hab.2))
  · by_cases hE : (ParserEngine.get_applicable_templates channel_id templates_db).isEmpty
    · simp [ParserEngine.parse_message, hE]
    · rcases hv : ((ParserEngine.get_applicable_templates channel_id
          templates_db).dropWhile (fun t => !attemptOk message channel_id user_id t)).head?.bind
        (attemptSignal message channel_id user_id) with _ | s
      · simp [ParserEngine.parse_message, hE, tryTemplatesTrace_eq, hv]
      · simp [ParserEngine.parse_message, hE, tryTemplatesTrace_eq, hv]

/-- Claim C1, witness: templates P2 (priority 5) and P1 (priority 1) on the
same channel end up in strictly descending priority order. -/
theorem C1_witness :
    (ParserEngine.get_applicable_templates 7
      [⟨1, "P1", 7, true, ⟨1, [("symbol", { extraction_method := "line" })]⟩⟩,
       ⟨2, "P2", 7, true, ⟨5, [("symbol", { extraction_method := "line" })]⟩⟩]).Pairwise
      (fun a b => ParserEngine.get_priority b < ParserEngine.get_priority a) :=
  (C1_claim ⟨1, 10, "EURUSD".toList⟩ 7 "u"
    [⟨1, "P1", 7, true, ⟨1, [("symbol", { extraction_method := "line" })]⟩⟩,
     ⟨2, "P2", 7, true, ⟨5, [("symbol", { extraction_method := "line" })]⟩⟩]
    (by decide)).1

/-! ## Claim C9: batch statistics -/

/-- The error string `parse_batch` records for one message, if any. -/
def parseErrOf (channel_id : Nat) (user_id : String) (templates_db : List Template)
    (m : Message) : Option String :=
  match ParserEngine.parse_message m channel_id user_id templates_db with
  | (none, e) => e
  | (some _, _) => none

theorem parse_message_none_err (m : Message) (ch : Nat) (uid : String)
    (db : List Template) (h : (ParserEngine.parse_message m ch uid db).1 = none) :
    ∃ e, (ParserEngine.parse_message m ch uid db).2 = some e := by
  by_cases hE : (ParserEngine.get_applicable_templates ch db).isEmpty
  · refine ⟨"No active templates found for channel", ?_⟩
    simp [ParserEngine.parse_message, hE]
  · rcases hv : (ParserEngine.tryTemplatesTrace m ch uid
        (ParserEngine.get_applicable_templates ch db)).1 with _ | s
    · refine ⟨"No template successfully extracted signal from message", ?_⟩
      simp [ParserEngine.parse_message, hE, hv]
    · rw [ParserEngine.parse_message] at h
      simp only [hE, hv] at h
      simp at h

theorem parseErrOf_isSome (ch : Nat) (uid : String) (db : List Template) (m : Message) :
    (parseErrOf ch uid db m).isSome = ((ParserEngine.parse_message m ch uid db).1).isNone := by
  rcases hp : ParserEngine.parse_message m ch uid db with ⟨o, e⟩
  cases o with
  | none =>
    obtain ⟨e', he⟩ := parse_message_none_err m ch uid db (by rw [hp])
    rw [hp] at he
    simp only at he
    simp [parseErrOf, hp, he]
  | some s => simp [parseErrOf, hp]

theorem length_filterMap_eq_countP {α β : Type} (f : α → Option β) (l : List α) :
    (l.filterMap f).length = l.countP (fun a => (f a).isSome) := by
  induction l with
  | nil => simp
  | cons a l ih =>
    rcases hf : f a with _ | b <;>
      simp [List.filterMap_cons, List.countP_cons, hf, ih]

theorem countP_isSome_add_isNone {α : Type} (f : α → Option Signal) (l : List α) :
    l.countP (fun a => (f a).isSome) + l.countP (fun a => (f a).isNone) = l.length := by
  induction l with
  | nil => simp
  | cons a l ih =>
    rcases hf : f a with _ | b
    · simp [List.countP_cons, hf]
      omega
    · simp [List.countP_cons, hf]
      omega

theorem parse_batch_go_eq (ch : Nat) (uid : String) (db : List Template) :
    ∀ (msgs : List Message) (sigs : List Signal) (stats : BatchStats),
      ParserEngine.parse_batch_go ch uid db msgs sigs stats =
        (sigs ++ msgs.filterMap (fun m => (ParserEngine.parse_message m ch uid db).1),
         ⟨stats.total_messages,
          stats.successful_extractions +
            msgs.countP (fun m => ((ParserEngine.parse_message m ch uid db).1).isSome),
          stats.failed_extractions +
            msgs.countP (fun m => ((ParserEngine.parse_message m ch uid db).1).isNone),
          stats.errors ++ msgs.filterMap (parseErrOf ch uid db)⟩) := by
  intro msgs
  induction msgs with
  | nil =>
    intro sigs stats
    simp [ParserEngine.parse_batch_go]
  | cons m ms ih =>
    intro sigs stats
    rcases hp : ParserEngine.parse_message m ch uid db with ⟨o, e⟩
    cases o with
    | some s =>
      simp only [ParserEngine.parse_batch_go, hp]
      rw [ih]
      simp [List.filterMap_cons, List.countP_cons, parseErrOf, hp, List.append_assoc]
      try omega
    | none =>
      simp only [ParserEngine.parse_batch_go, hp]
      rw [ih]
      cases e with
      | none =>
        simp [List.filterMap_cons, List.countP_cons, parseErrOf, hp, List.append_assoc]
        try omega
      | some e' =>
        simp [List.filterMap_cons, List.countP_cons, parseErrOf, hp, List.append_assoc]
        try omega

/-- Claim C9: over N messages of which M fail to produce a Signal,
`parse_batch` reports total N, successful N−M, failed M, an error list of
length M, and a signal list of length N−M; the counts range over every
message (no early exit). -/
theorem C9_claim (messages : List Message) (ch : Nat) (uid : String)
    (db : List Template) :
    (ParserEngine.parse_batch messages ch uid db).2.total_messages = messages.length
    ∧ (ParserEngine.parse_batch messages ch uid db).2.failed_extractions =
        messages.countP (fun m => ((ParserEngine.parse_message m ch uid db).1).isNone)
    ∧ (ParserEngine.parse_batch messages ch uid db).2.successful_extractions =
        messages.length -
          messages.countP (fun m => ((ParserEngine.parse_message m ch uid db).1).isNone)
    ∧ (ParserEngine.parse_batch messages ch uid db).2.errors.length =
        messages.countP (fun m => ((ParserEngine.parse_message m ch uid db).1).isNone)
    ∧ (ParserEngine.parse_batch messages ch uid db).1.length =
        messages.length -
          messages.countP (fun m => ((ParserEngine.parse_message m ch uid db).1).isNone) := by
  have hsum := countP_isSome_add_isNone
    (fun m => (ParserEngine.parse_message m ch uid db).1) messages
  rw [ParserEngine.parse_batch, parse_batch_go_eq]
  refine ⟨rfl, by simp, ?_, ?_, ?_⟩
  · simp only [Nat.zero_add]
    omega
  · simp only [List.nil_append]
    rw [length_filterMap_eq_countP]
    apply List.countP_congr
    intro m _
    rw [parseErrOf_isSome ch uid db m]
  · simp only [List.nil_append]
    rw [length_filterMap_eq_countP]
    omega

/-! ## Claim C4: the line-based extractor and the marker_after slice -/

theorem isEmpty_false_of_ne_nil (sep : Str) (hsep : sep ≠ []) : sep.isEmpty = false := by
  cases sep with
  | nil => exact absurd rfl hsep
  | cons a as => rfl

theorem pySplitF_fuel (sep : Str) (hsep : sep ≠ []) :
    ∀ (f g : Nat) (s : Str), s.length < f → s.length < g →
      pySplitF f sep s = pySplitF g sep s := by
  intro f
  induction f with
  | zero =>
    intro g s hf
    omega
  | succ f ihf =>
    intro g s hf hg
    cases g with
    | zero => omega
    | succ g =>
      cases s with
      | nil => rfl
      | cons c rest =>
        have hslen : 0 < sep.length := List.length_pos.mpr hsep
        simp only [pySplitF]
        by_cases hpre : sep.isPrefixOf (c :: rest)
        · rw [if_pos hpre, if_pos hpre]
          congr 1
          apply ihf
          · simp only [List.length_drop, List.length_cons]
            simp only [List.length_cons] at hf
            omega
          · simp only [List.length_drop, List.length_cons]
            simp only [List.length_cons] at hg
            omega
        · rw [if_neg hpre, if_neg hpre]
          congr 1
          apply ihf
          · simp only [List.length_cons] at hf
            omega
          · simp only [List.length_cons] at hg
            omega

theorem pySplitF_succ_cons (f : Nat) (sep : Str) (c : Char) (rest : Str) :
    pySplitF (f + 1) sep (c :: rest) =
      if sep.isPrefixOf (c :: rest) then [] :: pySplitF f sep ((c :: rest).drop sep.length)
      else consHead c (pySplitF f sep rest) := rfl

theorem pySplit_eq_F (sep : Str) (hsep : sep ≠ []) (s : Str) :
    pySplit sep s = pySplitF (s.length + 1) sep s := by
  rw [pySplit, isEmpty_false_of_ne_nil sep hsep]
  exact if_neg (by decide)

theorem pySplit_nil_eq (sep : Str) (hsep : sep ≠ []) : pySplit sep [] = [[]] := by
  rw [pySplit_eq_F sep hsep]
  rfl

theorem pySplit_cons_pos (sep : Str) (c : Char) (rest : Str) (hsep : sep ≠ [])
    (hpre : sep.isPrefixOf (c :: rest)) :
    pySplit sep (c :: rest) = [] :: pySplit sep ((c :: rest).drop sep.length) := by
  have hslen : 0 < sep.length := List.length_pos.mpr hsep
  rw [pySplit_eq_F sep hsep, pySplit_eq_F sep hsep]
  rw [show (c :: rest).length + 1 = rest.length + 1 + 1 from by simp]
  rw [pySplitF_succ_cons, if_pos hpre]
  congr 1
  apply pySplitF_fuel sep hsep
  · simp only [List.length_drop, List.length_cons]
    omega
  · simp only [List.length_drop, List.length_cons]
    omega

theorem pySplit_cons_neg (sep : Str) (c : Char) (rest : Str) (hsep : sep ≠ [])
    (hpre : ¬ sep.isPrefixOf (c :: rest)) :
    pySplit sep (c :: rest) = consHead c (pySplit sep rest) := by
  rw [pySplit_eq_F sep hsep, pySplit_eq_F sep hsep]
  rw [show (c :: rest).length + 1 = rest.length + 1 + 1 from by simp]
  rw [pySplitF_succ_cons, if_neg hpre]

theorem findOcc_nil_eq (sep : Str) (hsep : sep ≠ []) : findOcc sep [] = none := by
  cases sep with
  | nil => exact absurd rfl hsep
  | cons a as => rfl

theorem findOcc_cons_pos (sep : Str) (c : Char) (rest : Str)
    (hpre : sep.isPrefixOf (c :: rest)) : findOcc sep (c :: rest) = some 0 := by
  simp [findOcc, hpre]

theorem findOcc_cons_neg (sep : Str) (c : Char) (rest : Str)
    (hpre : ¬ sep.isPrefixOf (c :: rest)) :
    findOcc sep (c :: rest) = (findOcc sep rest).map (· + 1) := by
  simp [findOcc, hpre]

theorem pySplit_occ_none (sep : Str) (hsep : sep ≠ []) :
    ∀ s : Str, findOcc sep s = none → pySplit sep s = [s] := by
  intro s
  induction s with
  | nil =>
    intro _
    exact pySplit_nil_eq sep hsep
  | cons c rest ih =>
    intro hocc
    by_cases hpre : sep.isPrefixOf (c :: rest)
    · rw [findOcc_cons_pos sep c rest hpre] at hocc
      simp at hocc
    · rw [findOcc_cons_neg sep c rest hpre] at hocc
      rw [pySplit_cons_neg sep c rest hsep hpre]
      rw [ih (by simpa using hocc)]
      rfl

theorem pySplit_occ_some (sep : Str) (hsep : sep ≠ []) :
    ∀ (s : Str) (i : Nat), findOcc sep s = some i →
      pySplit sep s = s.take i :: pySplit sep (s.drop (i + sep.length)) := by
  intro s
  induction s with
  | nil =>
    intro i hocc
    rw [findOcc_nil_eq sep hsep] at hocc
    simp at hocc
  | cons c rest ih =>
    intro i hocc
    by_cases hpre : sep.isPrefixOf (c :: rest)
    · rw [findOcc_cons_pos sep c rest hpre] at hocc
      obtain rfl : (0 : Nat) = i := by simpa using hocc
      rw [pySplit_cons_pos sep c rest hsep hpre]
      simp
    · rw [findOcc_cons_neg sep c rest hpre] at hocc
      rcases hrest : findOcc sep rest with _ | j
      · rw [hrest] at hocc
        simp at hocc
      · rw [hrest] at hocc
        simp only [Option.map, Option.bind] at hocc
        have hij : i = j + 1 := by
          have := Option.some.inj hocc
          omega
        subst hij
        rw [pySplit_cons_neg sep c rest hsep hpre]
        rw [ih j hrest]
        show (c :: rest.take j) :: pySplit sep (rest.drop (j + sep.length)) = _
        rw [show (c :: rest).take (j + 1) = c :: rest.take j from rfl]
        rw [show j + 1 + sep.length = (j + sep.length) + 1 from by omega]
        rw [show (c :: rest).drop ((j + sep.length) + 1) = rest.drop (j + sep.length) from rfl]

theorem pySplit_ne_nil (sep : Str) (hsep : sep ≠ []) (s : Str) : pySplit sep s ≠ [] := by
  rcases hocc : findOcc sep s with _ | i
  · rw [pySplit_occ_none sep hsep s hocc]
    simp
  · rw [pySplit_occ_some sep hsep s i hocc]
    simp

theorem pySplit_length_gt_one (sep : Str) (hsep : sep ≠ []) (s : Str) :
    1 < (pySplit sep s).length ↔ (findOcc sep s).isSome := by
  rcases hocc : findOcc sep s with _ | i
  · rw [pySplit_occ_none sep hsep s hocc]
    simp
  · rw [pySplit_occ_some sep hsep s i hocc]
    simp only [Option.isSome_some, iff_true, List.length_cons]
    have hl := List.length_pos.mpr (pySplit_ne_nil sep hsep (s.drop (i + sep.length)))
    omega

theorem pySplit_getD_one (sep : Str) (hsep : sep ≠ []) (s : Str) (i : Nat)
    (hocc : findOcc sep s = some i) :
    (pySplit sep s).getD 1 [] =
      (s.drop (i + sep.length)).take
        ((findOcc sep (s.drop (i + sep.length))).getD (s.drop (i + sep.length)).length) := by
  rw [pySplit_occ_some sep hsep s i hocc]
  show (pySplit sep (s.drop (i + sep.length))).getD 0 [] = _
  rcases hocc2 : findOcc sep (s.drop (i + sep.length)) with _ | j
  · rw [pySplit_occ_none sep hsep _ hocc2]
    simp [List.getD, List.take_length]
  · rw [pySplit_occ_some sep hsep _ j hocc2]
    simp [List.getD]

/-- The line-based extractor as the amended claim describes it: split into
lines, index 0-based (absent when out of bounds), strip the line; when a
non-empty `marker_after` is configured and occurs on the stripped line,
return the trimmed text between the end of its first occurrence and its
next occurrence (to the end of the line if it occurs only once); otherwise
the stripped line, absent if empty. -/
def lineExtract_amended (message : Str) (config : FieldConfig) : Option Str :=
  let lines := pySplit ['\n'] message
  let line_number := config.line_number
  if line_number < 0 || (lines.length : Int) ≤ line_number then none
  else
    let line := pyStrip (lines.getD line_number.toNat [])
    let viaMarker : Option Str :=
      match config.marker_after with
      | some m =>
        if !m.isEmpty then
          match findOcc m line with
          | some i =>
            some (pyStrip ((line.drop (i + m.length)).take
              ((findOcc m (line.drop (i + m.length))).getD (line.drop (i + m.length)).length)))
          | none => none
        else none
      | none => none
    match viaMarker with
    | some v => some v
    | none => if line.isEmpty then none else some line

/-- Claim C4, counterexample to the claim as stated: on the line "a:b:c"
with marker ":", the extractor returns "b" (the segment between the first
and second occurrence), not the claimed text "b:c" after the first
occurrence to the end of the line. -/
theorem C4_counterexample :
    LineBasedExtractionMethod.extract "a:b:c".toList
        { extraction_method := "line", line_number := 0, marker_after := some ":".toList } =
      some "b".toList
    ∧ pyStrip ((pyStrip "a:b:c".toList).drop 2) = "b:c".toList
    ∧ some "b".toList ≠ some (pyStrip ((pyStrip "a:b:c".toList).drop 2)) := by
  decide

/-- Claim C4 (amended): the line extractor equals the amended description —
out-of-bounds indices give an absent value, and with a configured marker
that occurs on the stripped line the result is the trimmed segment between
the first occurrence and the next one (end of line if none), else the
stripped line (absent when empty). -/
theorem C4_amended (message : Str) (config : FieldConfig) :
    LineBasedExtractionMethod.extract message config = lineExtract_amended message config := by
  simp only [LineBasedExtractionMethod.extract, lineExtract_amended]
  by_cases hb : (decide (config.line_number < 0) ||
      decide (((pySplit ['\n'] message).length : Int) ≤ config.line_number)) = true
  · rw [if_pos hb, if_pos hb]
  · rw [if_neg hb, if_neg hb]
    rcases hma : config.marker_after with _ | m
    · simp only [hma]
    · simp only [hma]
      by_cases hme : m.isEmpty
      · simp [hme]
      · have hm : m ≠ [] := fun h => by
          rw [h] at hme
          exact hme rfl
        have hme' : m.isEmpty = false := isEmpty_false_of_ne_nil m hm
        rcases hocc : findOcc m (pyStrip ((pySplit ['\n'] message).getD
            config.line_number.toNat [])) with _ | i
        · have hlen : ¬ 1 < (pySplit m (pyStrip ((pySplit ['\n'] message).getD
              config.line_number.toNat []))).length := by
            rw [pySplit_length_gt_one m hm, hocc]
            simp
          rw [if_neg hlen]
        · have hlen : 1 < (pySplit m (pyStrip ((pySplit ['\n'] message).getD
              config.line_number.toNat []))).length := by
            rw [pySplit_length_gt_one m hm, hocc]
            simp
          rw [if_pos hlen, pySplit_getD_one m hm _ i hocc]
